import Mathlib

set_option maxHeartbeats 1000000

/-! Shallow embedding of the two exporter scripts `rbd_du_exporter.py` and
`rbd_usage_exporter.py`.  Pure data flow is modelled by Lean functions;
Python exceptions are modelled by `Option`/`Except`: a `none`/`.error`
input stands for a call that raised, and a function returns
`none`/`.error` exactly where the source lets an exception propagate.
Filesystem state for the file-backed variant is an explicit record of the
two file contents.  -/

/-- One rbd image as opened in `_get_usage` of `rbd_du_exporter.py`
(lines 140-151): its `image_name`, `image.id()`, the `stat()` fields
`size`, `num_objs`, `obj_size`, and the bitmask from `image.features()`. -/
structure ImageHandle where
  name : String
  id : String
  size : Nat
  num_objs : Nat
  obj_size : Nat
  features : Nat
deriving DecidableEq

/-- One entry of the per-image usage result list built by `_get_usage`
in both scripts: `{'name', 'id', 'provisioned_size', 'used_size'}`. -/
structure ImageInfo where
  name : String
  id : String
  provisioned_size : Nat
  used_size : Nat
deriving DecidableEq

/-- `_has_object_map_feature` (rbd_du_exporter.py lines 204-225):
`(features & 8) == 8`, bit value 8 being the object-map feature. -/
def hasObjectMapFeature (features : Nat) : Bool :=
  features &&& 8 == 8

/-- The 2-bit allocation code the scanner extracts for unit index `i`
(rbd_du_exporter.py lines 155-156): the byte at offset `floor(i / 4)` of
the object-map object, shifted right by `6 - 2 * (i % 4)`, masked with 3. -/
def objMapCode (bitmap : Nat → Nat) (i : Nat) : Nat :=
  (bitmap (i / 4) >>> (6 - 2 * (i % 4))) &&& 3

/-- The scanner loop of `_get_usage` (rbd_du_exporter.py lines 152-158)
over an explicit list of unit indexes.  `read off` models
`ioctx.read('rbd_object_map.' + image_id, 1, off)[0]`: `some b` is the
byte read, `none` a raised exception, which the loop propagates (the
`for` body has no handler of its own). -/
def scanLoop (read : Nat → Option Nat) : List Nat → Nat → Option Nat
  | [], acc => some acc
  | i :: is, acc =>
    match read (i / 4) with
    | none => none
    | some b =>
      scanLoop read is
        (if (b >>> (6 - 2 * (i % 4))) &&& 3 = 1 ∨ (b >>> (6 - 2 * (i % 4))) &&& 3 = 2 then
          acc + 1
        else acc)

/-- The whole scanner pass: `for i in range(1, num_objs)` with counter
starting at `allocated = 0` (rbd_du_exporter.py lines 152-158). -/
def scanAllocatedE (read : Nat → Option Nat) (numObjs : Nat) : Option Nat :=
  scanLoop read (List.range' 1 (numObjs - 1)) 0

/-- The byte offsets the scanner loop reads, in order: `floor(i / 4)` for
`i` in `range(1, num_objs)` (rbd_du_exporter.py line 155). -/
def scanOffsets (numObjs : Nat) : List Nat :=
  (List.range' 1 (numObjs - 1)).map (fun i => i / 4)

/-- The parsed JSON of one `rbd du` invocation in `rbd_du_exporter.py`
(lines 169-177).  `images = some l` models a payload whose `'images'` key
holds list `l`; `images = none` models a payload without that key
(the code checks `'images' in output.keys()`). -/
structure DuJson where
  images : Option (List ImageInfo)
deriving DecidableEq

/-- Per-image body of `_get_usage` in `rbd_du_exporter.py` (lines 142-179),
for an image that opened successfully.  If the object-map feature is set,
the scanner runs; a scanner exception propagates to the outer
`except ... continue` (line 180-182), so the image contributes nothing —
the `rbd du` fallback is NOT attempted on that path.  Without the feature,
`rbd du <pool> <image>` runs; `duOut = none` models the inner
`try/except` catching a subprocess/JSON error (lines 172-179), and all
entries of the payload's `'images'` list are appended unfiltered. -/
def resolveImageDu (img : ImageHandle) (read : Nat → Option Nat) (duOut : Option DuJson) :
    List ImageInfo :=
  if hasObjectMapFeature img.features then
    match scanAllocatedE read img.num_objs with
    | some allocated => [⟨img.name, img.id, img.size, allocated * img.obj_size⟩]
    | none => []
  else
    match duOut with
    | some j => j.images.getD []
    | none => []

/-- Argument list of the fallback invocation in `rbd_du_exporter.py`
(lines 169-170): note it names the single image, not just the pool. -/
def duFallbackArgs (conf keyring pool imageName : String) : List String :=
  ["rbd", "-c", conf, "-k", keyring, "du", "-p", pool, imageName, "--format", "json"]

/-- Timeout passed to `subprocess.check_output` for the du-variant
fallback (rbd_du_exporter.py line 173): 300 seconds. -/
def duFallbackTimeout : Option Nat :=
  some 300

/-- Shell command of the fallback invocation in `rbd_usage_exporter.py`
(line 155): scoped by pool only. -/
def usageFallbackCmd (conf keyring pool : String) : String :=
  "rbd -c " ++ conf ++ " -k " ++ keyring ++ " du -p " ++ pool ++ " --format json"

/-- Timeout of the fallback invocation in `rbd_usage_exporter.py`
(lines 157-159): `subprocess.Popen` followed by `res.stdout.read()`
carries no timeout argument at all, so the call is unbounded. -/
def usageFallbackTimeout : Option Nat :=
  none

/-- Counts list elements satisfying `p`; specification-side companion of
the scanner loop's counter. -/
def listCountIf (p : Nat → Prop) [DecidablePred p] : List Nat → Nat
  | [] => 0
  | i :: is => (if p i then 1 else 0) + listCountIf p is

/-- Filesystem state shared by the two threads of
`rbd_usage_exporter.py`: the contents of the temporary file
`/tmp/rbd_usage.prom.tmp` (`tmp`) and of the served file
`/tmp/rbd_usage.prom` (`prom`), each `none` when the file does not
exist, otherwise the list of its lines. -/
structure FS where
  tmp : Option (List String)
  prom : Option (List String)
deriving DecidableEq

/-- `_write_to_file` (rbd_usage_exporter.py lines 185-195): opens the
temporary file in append mode — creating it when absent — and appends
one line. -/
def writeToFile (line : String) (fs : FS) : FS :=
  ⟨some (fs.tmp.getD [] ++ [line]), fs.prom⟩

/-- `_rename_tmp` (rbd_usage_exporter.py lines 198-212): one `os.rename`
call from the temporary file onto the served file.  `ok = false` models
the OS call raising; a missing temporary file also raises.  Either
exception is caught (`except ... print`), leaving both files as they
were.  A successful rename moves the content in a single step: the
temporary path ceases to exist and the served path holds exactly the
former temporary content. -/
def renameTmp (ok : Bool) (fs : FS) : FS :=
  if ok then
    match fs.tmp with
    | some t => ⟨none, some t⟩
    | none => fs
  else fs

/-- `remove_tmp_if_exist` (rbd_usage_exporter.py lines 215-223): startup
cleanup removing any leftover temporary file. -/
def removeTmpIfExist (fs : FS) : FS :=
  ⟨none, fs.prom⟩

/-- One atomic filesystem action of a collection cycle: appending a line
to the temporary file (`ok = false` when the write raises — caught in
`_write_to_file`, the line is lost), or the final rename. -/
inductive FsOp where
  | append (ok : Bool) (line : String)
  | rename (ok : Bool)

def applyOp (fs : FS) : FsOp → FS
  | .append ok l => if ok then writeToFile l fs else fs
  | .rename ok => renameTmp ok fs

def applyOps (ops : List FsOp) (fs : FS) : FS :=
  ops.foldl applyOp fs

/-- Every filesystem state reached while a list of atomic actions runs,
starting state included: what a concurrent reader can observe. -/
def statesFrom (fs : FS) : List FsOp → List FS
  | [] => [fs]
  | op :: ops => fs :: statesFrom (applyOp fs op) ops

def appendOps (writes : List (String × Bool)) : List FsOp :=
  writes.map (fun w => FsOp.append w.2 w.1)

/-- The atomic actions of one `collect_to_file` pass
(rbd_usage_exporter.py lines 55-73): all line appends in order, then the
single rename. -/
def opsOfCycle (writes : List (String × Bool)) (renameOk : Bool) : List FsOp :=
  appendOps writes ++ [FsOp.rename renameOk]

/-- The lines whose append succeeded, in order. -/
def okLines (writes : List (String × Bool)) : List String :=
  (writes.filter (fun w => w.2)).map (fun w => w.1)

def appendOk (t : Option (List String)) (writes : List (String × Bool)) :
    Option (List String) :=
  writes.foldl (fun acc w => if w.2 then some (acc.getD [] ++ [w.1]) else acc) t

/-- One whole `collect_to_file` pass as a state transformer. -/
def runCycle (writes : List (String × Bool)) (renameOk : Bool) (fs : FS) : FS :=
  applyOps (opsOfCycle writes renameOk) fs

/-- Writes that all succeed, one per line. -/
def wrAll (ls : List String) : List (String × Bool) :=
  ls.map (fun l => (l, true))

/-- Python `s.strip('\n')`: removes leading and trailing newline
characters (rbd both variants, `_get_pool`). -/
def stripNl (s : String) : String :=
  String.mk (((s.toList.dropWhile (fun c => c == '\n')).reverse.dropWhile
    (fun c => c == '\n')).reverse)

/-- Python `s.split(',')`: cut at every comma, keeping empty pieces. -/
def splitCommaAux : List Char → List Char → List String
  | [], cur => [String.mk cur.reverse]
  | c :: cs, cur =>
    if c == ',' then String.mk cur.reverse :: splitCommaAux cs []
    else splitCommaAux cs (c :: cur)

def splitComma (s : String) : List String :=
  splitCommaAux s.toList []

/-- `_get_pool` (identical in both scripts, rbd_du_exporter.py lines
98-121 / rbd_usage_exporter.py lines 125-140): `output = none` models
`subprocess.check_output` raising — there is no handler inside
`_get_pool`, so the exception propagates (`.error`).  A truthy (non-empty)
output is stripped of newlines and split on commas; a falsy (empty)
output yields zero pools. -/
def getPool (output : Option String) : Except Unit (List String) :=
  match output with
  | none => .error ()
  | some out => if out.isEmpty then .ok [] else .ok (splitComma (stripNl out))

/-- `_get_usage` of `rbd_usage_exporter.py` (lines 143-167): the
pool-scoped `rbd du` subprocess.  `duOut = none` models any exception
(Popen failure, bad JSON, missing `'images'` key), caught by the
function's own `try/except`, so the pool yields no entries; otherwise all
entries of the payload's `'images'` list are returned when that list is
non-empty. -/
def getUsageU (duOut : Option (List ImageInfo)) : List ImageInfo :=
  match duOut with
  | none => []
  | some l => if l.length > 0 then l else []

/-- The `rbd_usage_bytes` line `_update_usage_metrics` writes for one
entry (rbd_usage_exporter.py lines 177-179). -/
def usageLine (e : ImageInfo) (pool : String) : String :=
  "rbd_usage_bytes\x7bimage=\"" ++ e.name ++ "\",pool=\"" ++ pool ++ "\",id=\"" ++
    e.id ++ "\"\x7d " ++ toString e.used_size

/-- The `rbd_total_provision_bytes` line `_update_usage_metrics` writes
for one entry (rbd_usage_exporter.py lines 181-182). -/
def provisionLine (e : ImageInfo) (pool : String) : String :=
  "rbd_total_provision_bytes\x7bimage=\"" ++ e.name ++ "\",pool=\"" ++ pool ++
    "\",id=\"" ++ e.id ++ "\"\x7d " ++ toString e.provisioned_size

/-- The `scrape_duration_seconds` line of `collect_to_file`
(rbd_usage_exporter.py line 71); the measured duration is passed already
rendered. -/
def durationLine (dur : String) : String :=
  "scrape_duration_seconds " ++ dur

/-- Lines one pool contributes in `collect_to_file`: two lines per entry
returned by the pool's usage query. -/
def poolLines (duQuery : String → Option (List ImageInfo)) (p : String) : List String :=
  (getUsageU (duQuery p)).flatMap (fun e => [usageLine e p, provisionLine e p])

/-- Lines of one whole cycle, pools in order. -/
def cycleLines (pools : List String) (duQuery : String → Option (List ImageInfo)) :
    List String :=
  pools.flatMap (poolLines duQuery)

/-- `collect_to_file` (rbd_usage_exporter.py lines 55-73): `_get_pool`
runs unguarded, so its failure propagates out of the function; otherwise
the cycle appends every pool's metric lines plus the duration line to the
temporary file and renames it onto the served file. -/
def collectToFileE (poolsOut : Option String) (duQuery : String → Option (List ImageInfo))
    (dur : String) (renameOk : Bool) (fs : FS) : Except Unit FS :=
  match getPool poolsOut with
  | .error e => .error e
  | .ok pools =>
    .ok (runCycle (wrAll (cycleLines pools duQuery ++ [durationLine dur])) renameOk fs)

/-- One iteration of the `while True` loop of `collect_metrics`
(rbd_usage_exporter.py lines 264-273): `collect_to_file` runs under
`try/except Exception`, so any failure — the pool-list query included —
is printed and the loop moves on with the filesystem unchanged by the
aborted call.  The process does not abort. -/
def collectMetricsIter (poolsOut : Option String)
    (duQuery : String → Option (List ImageInfo)) (dur : String) (renameOk : Bool)
    (fs : FS) : FS :=
  match collectToFileE poolsOut duQuery dur renameOk fs with
  | .ok fs2 => fs2
  | .error _ => fs

/-- The serving-side `collect` of `rbd_usage_exporter.py` (lines 76-101):
`open('/tmp/rbd_usage.prom', 'r')` has no handler, so a missing file
raises (`.error`); otherwise the scrape serves the published lines.  The
per-line parse into gauge objects is a pure rendering of those lines and
is not modelled further. -/
def readerCollect (fs : FS) : Except Unit (List String) :=
  match fs.prom with
  | none => .error ()
  | some ls => .ok ls

/-- Everything `_get_usage` of `rbd_du_exporter.py` consumes for one
image of the listed pool: whether `rbd.Image(ioctx, image_name)` (and
`id()`/`stat()`) succeeded, the handle, the bitmap byte reader, and the
parsed payload of the per-image `rbd du` fallback. -/
structure PerImageInput where
  open_ok : Bool
  img : ImageHandle
  read : Nat → Option Nat
  duOut : Option DuJson

/-- Per-image step of `_get_usage` in `rbd_du_exporter.py` under the
outer `try/except ... continue` (lines 141-182): a failed open
contributes nothing, otherwise `resolveImageDu` decides. -/
def resolveImageDuE (x : PerImageInput) : List ImageInfo :=
  if x.open_ok then resolveImageDu x.img x.read x.duOut else []

/-- Pool body of `_get_usage` in `rbd_du_exporter.py` (lines 134-184):
connecting to the cluster, opening the pool and listing its images
(lines 135-138) happen OUTSIDE any try, so `poolData = .error` — any such
failure — propagates; with an image list, the per-image results are
concatenated. -/
def getUsageDu (poolData : Except Unit (List PerImageInput)) :
    Except Unit (List ImageInfo) :=
  match poolData with
  | .error e => .error e
  | .ok inputs => .ok (inputs.foldl (fun acc x => acc ++ resolveImageDuE x) [])

/-- The cycle of `collect` in `rbd_du_exporter.py` (lines 56-73) up to
the metric records it yields: `_get_pool` and each `_get_usage(p)` run
unguarded in `collect`, so either failure aborts the whole cycle;
otherwise every pool's entries are tagged with their pool and
concatenated. -/
def collectDu (poolsOut : Option String)
    (poolData : String → Except Unit (List PerImageInput)) :
    Except Unit (List (String × ImageInfo)) :=
  match getPool poolsOut with
  | .error e => .error e
  | .ok pools =>
    pools.foldlM
      (fun acc p =>
        match getUsageDu (poolData p) with
        | .error e => Except.error e
        | .ok usage => Except.ok (acc ++ usage.map (fun e => (p, e))))
      []

deriving instance DecidableEq for Except

lemma listCountIf_append (p : Nat → Prop) [DecidablePred p] (l1 l2 : List Nat) :
    listCountIf p (l1 ++ l2) = listCountIf p l1 + listCountIf p l2 := by
  induction l1 with
  | nil => simp [listCountIf]
  | cons i is ih => simp [listCountIf, ih]; omega

lemma listCountIf_range' (p : Nat → Prop) [DecidablePred p] :
    ∀ n : Nat, listCountIf p (List.range' 1 n) = ((Finset.Icc 1 n).filter p).card := by
  intro n
  induction n with
  | zero =>
    rw [Finset.Icc_eq_empty (by omega)]
    simp [listCountIf]
  | succ n ih =>
    rw [List.range'_1_concat, listCountIf_append, ih, Nat.add_comm 1 n]
    rw [← Nat.Icc_insert_succ_right (by omega), Finset.filter_insert]
    by_cases hp : p (n + 1)
    · rw [if_pos hp]
      rw [Finset.card_insert_of_not_mem (by simp [Finset.mem_Icc])]
      simp [listCountIf, hp]
    · rw [if_neg hp]
      simp [listCountIf, hp]

lemma scanLoop_total (bitmap : Nat → Nat) :
    ∀ (l : List Nat) (acc : Nat),
      scanLoop (fun off => some (bitmap off)) l acc =
        some (acc + listCountIf (fun i => objMapCode bitmap i = 1 ∨ objMapCode bitmap i = 2) l) := by
  intro l
  induction l with
  | nil => intro acc; simp [scanLoop, listCountIf]
  | cons i is ih =>
    intro acc
    show scanLoop _ is _ = _
    rw [ih]
    have hcode : (bitmap (i / 4) >>> (6 - 2 * (i % 4))) &&& 3 = objMapCode bitmap i := rfl
    by_cases h : objMapCode bitmap i = 1 ∨ objMapCode bitmap i = 2
    · rw [if_pos (hcode ▸ h)]
      simp [listCountIf, h]
      omega
    · rw [if_neg (hcode ▸ h)]
      simp [listCountIf, h]

lemma scanAllocatedE_total (bitmap : Nat → Nat) (numObjs : Nat) :
    scanAllocatedE (fun off => some (bitmap off)) numObjs =
      some (((Finset.Icc 1 (numObjs - 1)).filter
        (fun i => objMapCode bitmap i = 1 ∨ objMapCode bitmap i = 2)).card) := by
  rw [scanAllocatedE, scanLoop_total, listCountIf_range']
  simp

lemma scanLoop_some_reads {read : Nat → Option Nat} :
    ∀ {l : List Nat} {acc a : Nat}, scanLoop read l acc = some a →
      ∀ i ∈ l, (read (i / 4)).isSome = true := by
  intro l
  induction l with
  | nil => intro acc a _ i hi; cases hi
  | cons j js ih =>
    intro acc a h i hi
    rw [scanLoop] at h
    cases hread : read (j / 4) with
    | none => rw [hread] at h; cases h
    | some b =>
      rw [hread] at h
      rcases List.mem_cons.mp hi with rfl | hmem
      · simp [hread]
      · exact ih h i hmem

lemma applyOps_append (ops1 ops2 : List FsOp) (fs : FS) :
    applyOps (ops1 ++ ops2) fs = applyOps ops2 (applyOps ops1 fs) := by
  simp [applyOps, List.foldl_append]

lemma mem_statesFrom_append {s : FS} :
    ∀ {ops1 : List FsOp} {fs : FS} {ops2 : List FsOp},
      s ∈ statesFrom fs (ops1 ++ ops2) →
      s ∈ statesFrom fs ops1 ∨ s ∈ statesFrom (applyOps ops1 fs) ops2 := by
  intro ops1
  induction ops1 with
  | nil => intro fs ops2 h; exact Or.inr h
  | cons op ops ih =>
    intro fs ops2 h
    rcases List.mem_cons.mp h with rfl | hmem
    · exact Or.inl (List.mem_cons_self _ _)
    · rcases ih hmem with h1 | h2
      · exact Or.inl (List.mem_cons_of_mem _ h1)
      · exact Or.inr h2

lemma prom_applyOp_append (fs : FS) (ok : Bool) (l : String) :
    (applyOp fs (.append ok l)).prom = fs.prom := by
  cases ok <;> simp [applyOp, writeToFile]

lemma prom_mem_statesFrom_appendOps {s : FS} :
    ∀ {writes : List (String × Bool)} {fs : FS},
      s ∈ statesFrom fs (appendOps writes) → s.prom = fs.prom := by
  intro writes
  induction writes with
  | nil =>
    intro fs h
    simp [appendOps, statesFrom] at h
    rw [h]
  | cons w ws ih =>
    intro fs h
    rcases List.mem_cons.mp h with rfl | hmem
    · rfl
    · rw [ih hmem, prom_applyOp_append]

lemma applyOps_appendOps :
    ∀ (writes : List (String × Bool)) (fs : FS),
      applyOps (appendOps writes) fs = ⟨appendOk fs.tmp writes, fs.prom⟩ := by
  intro writes
  induction writes with
  | nil => intro fs; rfl
  | cons w ws ih =>
    intro fs
    show applyOps (appendOps ws) (applyOp fs (.append w.2 w.1)) = _
    rw [ih]
    cases hw : w.2 <;> simp [applyOp, writeToFile, appendOk, hw]

lemma appendOk_some (writes : List (String × Bool)) :
    ∀ l : List String, appendOk (some l) writes = some (l ++ okLines writes) := by
  induction writes with
  | nil => intro l; simp [appendOk, okLines]
  | cons w ws ih =>
    intro l
    cases hw : w.2
    · have hstep : appendOk (some l) (w :: ws) = appendOk (some l) ws := by
        simp [appendOk, hw]
      rw [hstep, ih]
      simp [okLines, hw]
    · have hstep : appendOk (some l) (w :: ws) = appendOk (some (l ++ [w.1])) ws := by
        simp [appendOk, hw]
      rw [hstep, ih]
      simp [okLines, hw]

lemma appendOk_none_eq {writes : List (String × Bool)} {t : List String} :
    appendOk none writes = some t → t = okLines writes := by
  induction writes with
  | nil => intro h; cases h
  | cons w ws ih =>
    intro h
    cases hw : w.2
    · rw [show appendOk none (w :: ws) = appendOk none ws by simp [appendOk, hw]] at h
      rw [ih h]
      simp [okLines, hw]
    · rw [show appendOk none (w :: ws) = appendOk (some [w.1]) ws by
        simp [appendOk, hw]] at h
      rw [appendOk_some] at h
      cases h
      simp [okLines, hw]

lemma okLines_wrAll (ls : List String) : okLines (wrAll ls) = ls := by
  induction ls with
  | nil => rfl
  | cons l ls ih => simp [okLines, wrAll] at ih ⊢; exact ih

lemma appendOk_none_wrAll {ls : List String} (h : ls ≠ []) :
    appendOk none (wrAll ls) = some ls := by
  cases ls with
  | nil => exact absurd rfl h
  | cons x xs =>
    rw [show appendOk none (wrAll (x :: xs)) = appendOk (some [x]) (wrAll xs) from rfl]
    rw [appendOk_some, okLines_wrAll]
    simp

lemma runCycle_eq (writes : List (String × Bool)) (rok : Bool) (fs : FS) :
    runCycle writes rok fs = renameTmp rok ⟨appendOk fs.tmp writes, fs.prom⟩ := by
  rw [runCycle, opsOfCycle, applyOps_append, applyOps_appendOps]
  rfl

/-- C1: for an image with the object-map capability and a reader that
returns the byte `bitmap off` at every offset `off`, the du-variant
resolver yields exactly one entry whose `used_size` is the number of unit
indexes `i` with `1 ≤ i ≤ num_objs - 1` whose 2-bit code
`(bitmap (i / 4) >>> (6 - 2 * (i % 4))) &&& 3` is 1 or 2, multiplied by
the unit size; index 0 lies outside the counted interval, and an index
whose code is 0 or 3 is never in the counted set. -/
theorem C1_bitmap_scanner_correct (img : ImageHandle) (bitmap : Nat → Nat)
    (duOut : Option DuJson) (hfeat : hasObjectMapFeature img.features = true) :
    resolveImageDu img (fun off => some (bitmap off)) duOut =
      [⟨img.name, img.id, img.size,
        ((Finset.Icc 1 (img.num_objs - 1)).filter
          (fun i => objMapCode bitmap i = 1 ∨ objMapCode bitmap i = 2)).card * img.obj_size⟩] ∧
    (0 : Nat) ∉ Finset.Icc 1 (img.num_objs - 1) ∧
    (∀ i : Nat, objMapCode bitmap i = 0 ∨ objMapCode bitmap i = 3 →
      i ∉ (Finset.Icc 1 (img.num_objs - 1)).filter
        (fun i => objMapCode bitmap i = 1 ∨ objMapCode bitmap i = 2)) := by
  refine ⟨?_, ?_, ?_⟩
  · simp only [resolveImageDu, hfeat, if_true]
    rw [scanAllocatedE_total]
  · simp [Finset.mem_Icc]
  · intro i hcode hmem
    rw [Finset.mem_filter] at hmem
    rcases hmem.2 with h1 | h2
    · rcases hcode with h | h <;> omega
    · rcases hcode with h | h <;> omega

/-- C1 witness: a concrete image (4 units, unit size 16, features 8) over
a bitmap whose byte 0 is 0x1B, i.e. the four 2-bit codes 0, 1, 2, 3: the
two units with codes 1 and 2 are counted, unit 0 and the code-3 unit are
not. -/
theorem C1_bitmap_scanner_correct_witness :
    resolveImageDu ⟨"img", "id1", 64, 4, 16, 8⟩
        (fun off => some (if off = 0 then 27 else 0)) none =
      [⟨"img", "id1", 64,
        ((Finset.Icc 1 3).filter
          (fun i => objMapCode (fun o => if o = 0 then 27 else 0) i = 1 ∨
            objMapCode (fun o => if o = 0 then 27 else 0) i = 2)).card * 16⟩] :=
  (C1_bitmap_scanner_correct ⟨"img", "id1", 64, 4, 16, 8⟩
    (fun o => if o = 0 then 27 else 0) none rfl).1

/-- C2: starting a cycle with no leftover temporary file, every state a
concurrent reader can observe during the cycle's atomic actions shows the
served file either as it was before the cycle or as exactly the complete
new line list — never a partial mixture; and a successful rename is a
single step that moves the whole temporary content onto the served path,
leaving no temporary file behind (a move, not a copy-then-delete). -/
theorem C2_publish_atomic (fs : FS) (writes : List (String × Bool)) (rok : Bool)
    (ht : fs.tmp = none) :
    (∀ s ∈ statesFrom fs (opsOfCycle writes rok),
      s.prom = fs.prom ∨ s.prom = some (okLines writes)) ∧
    (∀ (g : FS) (t : List String), g.tmp = some t → renameTmp true g = ⟨none, some t⟩) := by
  constructor
  · intro s hs
    rcases mem_statesFrom_append hs with h1 | h2
    · exact Or.inl (prom_mem_statesFrom_appendOps h1)
    · rw [applyOps_appendOps, ht] at h2
      rcases List.mem_cons.mp h2 with rfl | hmem
      · exact Or.inl rfl
      · have hs2 : s = renameTmp rok ⟨appendOk none writes, fs.prom⟩ := by
          simpa [statesFrom, applyOp] using hmem
        cases rok with
        | false => rw [hs2]; exact Or.inl rfl
        | true =>
          cases hsome : appendOk none writes with
          | none =>
            rw [hs2, hsome]
            exact Or.inl rfl
          | some t =>
            have hteq := appendOk_none_eq hsome
            subst hteq
            rw [hs2, hsome]
            exact Or.inr rfl
  · intro g t hg
    simp [renameTmp, hg]

/-- C2 witness: one cycle writing the single line "a" over a published
file ["o"]: the final observable state shows the complete new snapshot. -/
theorem C2_publish_atomic_witness :
    (⟨none, some ["a"]⟩ : FS).prom = (⟨none, some ["o"]⟩ : FS).prom ∨
      (⟨none, some ["a"]⟩ : FS).prom = some (okLines [("a", true)]) :=
  (C2_publish_atomic ⟨none, some ["o"]⟩ [("a", true)] true rfl).1
    ⟨none, some ["a"]⟩ (by decide)

/-- C3 counterexample: an image WITH the object-map feature (features 8,
two units) whose single bitmap read raises: the du-variant resolver
returns the empty list — the image is skipped via the outer
`except ... continue` — even though a fallback `rbd du` payload with a
matching entry was available; the claim says the resolver would fall back
and yield that entry. -/
theorem C3_scanner_error_fallback_cex :
    resolveImageDu ⟨"img1", "id1", 100, 2, 16, 8⟩ (fun _ => none)
      (some ⟨some [⟨"img1", "1", 100, 50⟩]⟩) = [] := rfl

/-- C3 amended: in `rbd_du_exporter.py`, when the object-map feature is
present and the scanner raises (any failed byte read), the image is
skipped for the cycle — it contributes no entry, and the external query
result is never consulted on that path; when the scan succeeds with count
`a`, the single returned entry has `used_size = a * obj_size` and every
unit index in `range(1, num_objs)` was actually read (no truncated scan
is ever returned). -/
theorem C3_scanner_error_skips_amended (img : ImageHandle) (read : Nat → Option Nat)
    (duOut : Option DuJson) (hfeat : hasObjectMapFeature img.features = true) :
    (scanAllocatedE read img.num_objs = none → resolveImageDu img read duOut = []) ∧
    (∀ a : Nat, scanAllocatedE read img.num_objs = some a →
      resolveImageDu img read duOut = [⟨img.name, img.id, img.size, a * img.obj_size⟩] ∧
      ∀ i ∈ List.range' 1 (img.num_objs - 1), (read (i / 4)).isSome = true) := by
  constructor
  · intro hnone
    simp only [resolveImageDu, hfeat, if_true, hnone]
  · intro a ha
    refine ⟨?_, ?_⟩
    · simp only [resolveImageDu, hfeat, if_true, ha]
    · exact fun i hi => scanLoop_some_reads ha i hi

/-- C3 amended witness: a 4-unit image with the feature, all bitmap bytes
0x1B: the scan succeeds with 2 allocated units and the resolver reports
`used_size = 2 * 16`. -/
theorem C3_scanner_error_skips_amended_witness :
    resolveImageDu ⟨"a", "i", 64, 4, 16, 8⟩ (fun _ => some 27) none =
      [⟨"a", "i", 64, 2 * 16⟩] :=
  ((C3_scanner_error_skips_amended ⟨"a", "i", 64, 4, 16, 8⟩ (fun _ => some 27) none
    rfl).2 2 (by decide)).1

/-- C4 counterexample: an image named "img1" without the object-map
feature, whose fallback payload holds one entry named "other": the
du-variant resolver returns that non-matching entry unchanged — it
performs no selection by image name — and the fallback command line it
runs contains the image name, i.e. the query is scoped to the single
image, not to the pool; the claim requires a pool-scoped query whose
result is filtered to the entry matching "img1" (here: none). -/
theorem C4_fallback_selection_cex :
    resolveImageDu ⟨"img1", "1", 100, 4, 16, 0⟩ (fun _ => none)
        (some ⟨some [⟨"other", "2", 10, 5⟩]⟩) = [⟨"other", "2", 10, 5⟩] ∧
    "img1" ∈ duFallbackArgs "c" "k" "rbd" "img1" :=
  ⟨rfl, by simp [duFallbackArgs]⟩

/-- C4 amended: for an image without the object-map feature, the
du-variant resolver invokes the external usage query scoped by pool AND
image name (both appear in the command), and passes through every entry
of the returned `'images'` list with `provisioned_size` and `used_size`
unchanged — no selection by name; if the query raises or the payload has
no `'images'` key, the image contributes no entry for the cycle. -/
theorem C4_fallback_passthrough_amended (conf keyring pool : String) (img : ImageHandle)
    (read : Nat → Option Nat) (j : DuJson)
    (hfeat : hasObjectMapFeature img.features = false) :
    resolveImageDu img read (some j) = j.images.getD [] ∧
    resolveImageDu img read none = [] ∧
    resolveImageDu img read (some ⟨none⟩) = [] ∧
    img.name ∈ duFallbackArgs conf keyring pool img.name ∧
    pool ∈ duFallbackArgs conf keyring pool img.name := by
  refine ⟨?_, ?_, ?_, ?_, ?_⟩
  · simp [resolveImageDu, hfeat]
  · simp [resolveImageDu, hfeat]
  · simp [resolveImageDu, hfeat]
  · simp [duFallbackArgs]
  · simp [duFallbackArgs]

/-- C4 amended witness: the spec's fabricated payload for image "img1"
without the capability passes through unchanged. -/
theorem C4_fallback_passthrough_amended_witness :
    resolveImageDu ⟨"img1", "1", 1073741824, 256, 4194304, 4⟩ (fun _ => none)
        (some ⟨some [⟨"img1", "1", 1073741824, 536870912⟩]⟩) =
      [⟨"img1", "1", 1073741824, 536870912⟩] :=
  (C4_fallback_passthrough_amended "c" "k" "rbd" ⟨"img1", "1", 1073741824, 256, 4194304, 4⟩
    (fun _ => none) ⟨some [⟨"img1", "1", 1073741824, 536870912⟩]⟩ rfl).1

/-- C5 counterexample: one listed pool "a" whose open/list step raises
(`rados`/`open_ioctx`/`list` run outside any try in the du variant,
lines 135-138): the whole cycle of `collect` aborts with the exception —
no snapshot, no duration metric — contradicting the claim that no
per-pool failure aborts a collection cycle. -/
theorem C5_cycle_resilience_cex :
    collectDu (some "a") (fun _ => Except.error ()) = Except.error () := by
  decide

/-- C5 amended: per-image failures never abort a du-variant cycle (a
failed image contributes nothing), and in the file-backed variant no
per-pool query failure aborts the cycle — the cycle always completes and
publishes exactly the successful pools' lines plus the duration line, a
failing pool contributing zero lines; but the du-variant cycle survives
only when every listed pool's open/list step succeeds. -/
theorem C5_cycle_resilience_amended (out : Option String) (pools : List String)
    (duQuery : String → Option (List ImageInfo)) (dur : String) (fs : FS)
    (poolData : String → Except Unit (List PerImageInput))
    (hp : getPool out = Except.ok pools) (ht : fs.tmp = none)
    (hok : ∀ p ∈ pools, ∃ l, poolData p = Except.ok l) :
    collectToFileE out duQuery dur true fs =
      Except.ok ⟨none, some (cycleLines pools duQuery ++ [durationLine dur])⟩ ∧
    (∀ p, duQuery p = none → poolLines duQuery p = []) ∧
    (∃ res, collectDu out poolData = Except.ok res) ∧
    (∀ x : PerImageInput, x.open_ok = false → resolveImageDuE x = []) := by
  refine ⟨?_, ?_, ?_, ?_⟩
  · unfold collectToFileE
    rw [hp]
    show Except.ok (runCycle (wrAll (cycleLines pools duQuery ++ [durationLine dur])) true fs) = _
    rw [runCycle_eq, ht,
      appendOk_none_wrAll (show (cycleLines pools duQuery ++ [durationLine dur] : List String) ≠ [] by simp)]
    rfl
  · intro p hq
    simp [poolLines, getUsageU, hq]
  · have key : ∀ (ps : List String) (acc : List (String × ImageInfo)),
        (∀ p ∈ ps, ∃ l, poolData p = Except.ok l) →
        ∃ res,
          ps.foldlM
            (fun acc p =>
              match getUsageDu (poolData p) with
              | .error e => Except.error e
              | .ok usage => Except.ok (acc ++ usage.map (fun e => (p, e))))
            acc = Except.ok res := by
      intro ps
      induction ps with
      | nil => intro acc _; exact ⟨acc, rfl⟩
      | cons p ps ih =>
        intro acc hall
        obtain ⟨l, hl⟩ := hall p (List.mem_cons_self _ _)
        obtain ⟨res, hres⟩ :=
          ih (acc ++ (l.foldl (fun a x => a ++ resolveImageDuE x) []).map (fun e => (p, e)))
            (fun q hq => hall q (List.mem_cons_of_mem _ hq))
        refine ⟨res, ?_⟩
        rw [List.foldlM_cons, hl]
        exact hres
    obtain ⟨res, hres⟩ := key pools [] hok
    refine ⟨res, ?_⟩
    unfold collectDu
    rw [hp]
    exact hres
  · intro x hx
    simp [resolveImageDuE, hx]

/-- C5 amended witness: a single pool "a" whose usage query fails still
yields a published snapshot holding just the duration line. -/
theorem C5_cycle_resilience_amended_witness :
    collectToFileE (some "a") (fun _ => none) "1" true ⟨none, none⟩ =
      Except.ok ⟨none, some (cycleLines ["a"] (fun _ => none) ++ [durationLine "1"])⟩ :=
  (C5_cycle_resilience_amended (some "a") ["a"] (fun _ => none) "1" ⟨none, none⟩
    (fun _ => Except.ok []) (by decide) rfl (fun p _ => ⟨[], rfl⟩)).1

/-- C6 counterexample: before any snapshot has been published (the
served file does not exist, even while the collector's temporary file
already has lines), a scrape raises the unhandled file-not-found error —
it does not return an empty body. -/
theorem C6_reader_cex :
    readerCollect ⟨some ["rbd_usage_bytes"], none⟩ = Except.error () := rfl

/-- C6 amended: a scrape returns exactly the lines of the currently
published snapshot file, and depends only on that file (it neither reads
the temporary file nor triggers collection); but when no snapshot has
been published yet the unguarded `open` raises and the scrape fails with
an error rather than returning an empty body. -/
theorem C6_reader_amended (fs : FS) :
    (fs.prom = none → readerCollect fs = Except.error ()) ∧
    (∀ ls : List String, fs.prom = some ls → readerCollect fs = Except.ok ls) ∧
    readerCollect fs = readerCollect ⟨none, fs.prom⟩ := by
  refine ⟨?_, ?_, ?_⟩
  · intro h; simp [readerCollect, h]
  · intro ls h; simp [readerCollect, h]
  · rfl

/-- C6 amended witness: with no published file, the scrape errors. -/
theorem C6_reader_amended_witness :
    readerCollect ⟨none, none⟩ = Except.error () :=
  (C6_reader_amended ⟨none, none⟩).1 rfl

/-- C7 counterexample: the file-backed variant's fallback invocation
(`subprocess.Popen` + `stdout.read()`, rbd_usage_exporter.py lines
155-159) carries no timeout at all, while the du variant's carries 300
seconds — so not every invocation of the external fallback usage query
is bounded by a five-minute timeout. -/
theorem C7_fallback_timeout_cex :
    usageFallbackTimeout = none ∧ duFallbackTimeout = some 300 :=
  ⟨rfl, rfl⟩

/-- C7 amended: the du-variant fallback is bounded by a 300-second
(five-minute) timeout and a failed (e.g. timed-out) query yields no
entry for the image; the file-backed variant's fallback has no timeout
bound, though a failed query likewise yields no entries for the pool. -/
theorem C7_fallback_timeout_amended (img : ImageHandle) (read : Nat → Option Nat)
    (hfeat : hasObjectMapFeature img.features = false) :
    duFallbackTimeout = some (5 * 60) ∧
    resolveImageDu img read none = [] ∧
    usageFallbackTimeout = none ∧
    getUsageU none = [] := by
  refine ⟨rfl, ?_, rfl, rfl⟩
  simp [resolveImageDu, hfeat]

/-- C7 amended witness. -/
theorem C7_fallback_timeout_amended_witness :
    duFallbackTimeout = some (5 * 60) ∧
    resolveImageDu ⟨"i", "1", 1, 1, 1, 0⟩ (fun _ => none) none = [] ∧
    usageFallbackTimeout = none ∧
    getUsageU none = [] :=
  C7_fallback_timeout_amended ⟨"i", "1", 1, 1, 1, 0⟩ (fun _ => none) rfl

/-- C8 counterexample: in the file-backed variant a failing pool-list
query makes `collect_to_file` raise, but the `while True` loop of
`collect_metrics` catches the exception and carries on with the
filesystem unchanged — the failure IS caught and the process does not
abort, contrary to the claim. -/
theorem C8_pool_list_fatal_cex :
    collectToFileE none (fun _ => none) "1" true ⟨none, none⟩ = Except.error () ∧
    collectMetricsIter none (fun _ => none) "1" true ⟨none, none⟩ = ⟨none, none⟩ :=
  ⟨rfl, rfl⟩

/-- C8 amended: the pool-list query returns the comma-separated pool
names of a non-empty output and zero pools for an empty output, and a
failure of the query call propagates uncaught out of the du-variant
collector (aborting its cycle, and — via the unguarded registration in
`main` — the process before serving); in the file-backed variant the
collection loop catches the failure and continues unchanged. -/
theorem C8_pool_list_amended (s : String) (duQuery : String → Option (List ImageInfo))
    (dur : String) (renameOk : Bool) (fs : FS)
    (poolData : String → Except Unit (List PerImageInput))
    (hs : s.isEmpty = false) :
    getPool none = Except.error () ∧
    getPool (some "") = Except.ok [] ∧
    getPool (some s) = Except.ok (splitComma (stripNl s)) ∧
    collectDu none poolData = Except.error () ∧
    collectMetricsIter none duQuery dur renameOk fs = fs := by
  refine ⟨rfl, rfl, ?_, rfl, rfl⟩
  simp [getPool, hs]

/-- C8 amended witness: output "a,b" parses to its comma-separated pool
names; a failed query aborts the du cycle but is absorbed by the
file-backed loop. -/
theorem C8_pool_list_amended_witness :
    getPool none = Except.error () ∧
    getPool (some "") = Except.ok [] ∧
    getPool (some "a,b") = Except.ok (splitComma (stripNl "a,b")) ∧
    collectDu none (fun _ => Except.ok []) = Except.error () ∧
    collectMetricsIter none (fun _ => none) "1" true ⟨none, none⟩ = ⟨none, none⟩ :=
  C8_pool_list_amended "a,b" (fun _ => none) "1" true ⟨none, none⟩
    (fun _ => Except.ok []) rfl

/-- C9: when `num_objs` is 0 or 1, `range(1, num_objs)` is empty, so the
scanner issues no byte read at all (it succeeds even under a reader that
fails on every offset) and counts zero allocated units; the resolver then
reports `used_size = 0` for such an image on the bitmap path. -/
theorem C9_scanner_trivial_images (read : Nat → Option Nat) (n : Nat)
    (h : n = 0 ∨ n = 1) :
    scanOffsets n = [] ∧
    scanAllocatedE read n = some 0 ∧
    (∀ img : ImageHandle, img.num_objs = n → hasObjectMapFeature img.features = true →
      ∀ duOut : Option DuJson,
        resolveImageDu img read duOut = [⟨img.name, img.id, img.size, 0⟩]) := by
  have hrange : List.range' 1 (n - 1) = [] := by
    rcases h with rfl | rfl <;> rfl
  refine ⟨?_, ?_, ?_⟩
  · rw [scanOffsets, hrange]; rfl
  · rw [scanAllocatedE, hrange]; rfl
  · intro img hn hfeat duOut
    simp only [resolveImageDu, hfeat, if_true, hn]
    rw [scanAllocatedE, hrange]
    show [(⟨img.name, img.id, img.size, 0 * img.obj_size⟩ : ImageInfo)] = _
    rw [Nat.zero_mul]

/-- C9 witness: a one-unit image under the reader that fails on every
offset still scans successfully to zero used units — no read happens. -/
theorem C9_scanner_trivial_images_witness :
    scanAllocatedE (fun _ => none) 1 = some 0 :=
  (C9_scanner_trivial_images (fun _ => none) 1 (Or.inr rfl)).2.1

/-- C10: with the startup cleanup done, if a cycle's rename fails, its
lines stay in the append-mode temporary file, and the next successful
cycle publishes the lines of BOTH cycles (duplicated series); when every
rename succeeds, each published file holds exactly one cycle's lines.
`L1 ++ [d1]` and `L2 ++ [d2]` are the two cycles' metric lines followed
by their `scrape_duration_seconds` line. -/
theorem C10_tmp_accumulation (fs : FS) (L1 L2 : List String) (d1 d2 : String) :
    (runCycle (wrAll (L2 ++ [d2])) true
        (runCycle (wrAll (L1 ++ [d1])) false (removeTmpIfExist fs))).prom =
      some ((L1 ++ [d1]) ++ (L2 ++ [d2])) ∧
    (runCycle (wrAll (L2 ++ [d2])) true
        (runCycle (wrAll (L1 ++ [d1])) true (removeTmpIfExist fs))).prom =
      some (L2 ++ [d2]) := by
  have h1 : (L1 ++ [d1] : List String) ≠ [] := by simp
  have h2 : (L2 ++ [d2] : List String) ≠ [] := by simp
  have hfail : runCycle (wrAll (L1 ++ [d1])) false (⟨none, fs.prom⟩ : FS) =
      ⟨some (L1 ++ [d1]), fs.prom⟩ := by
    rw [runCycle_eq]
    simp [renameTmp, appendOk_none_wrAll h1]
  have hsucc1 : runCycle (wrAll (L1 ++ [d1])) true (⟨none, fs.prom⟩ : FS) =
      ⟨none, some (L1 ++ [d1])⟩ := by
    rw [runCycle_eq]
    simp [renameTmp, appendOk_none_wrAll h1]
  have hsucc2 : runCycle (wrAll (L2 ++ [d2])) true (⟨some (L1 ++ [d1]), fs.prom⟩ : FS) =
      ⟨none, some ((L1 ++ [d1]) ++ (L2 ++ [d2]))⟩ := by
    rw [runCycle_eq]
    simp [renameTmp, appendOk_some, okLines_wrAll]
  have hsucc3 : runCycle (wrAll (L2 ++ [d2])) true (⟨none, some (L1 ++ [d1])⟩ : FS) =
      ⟨none, some (L2 ++ [d2])⟩ := by
    rw [runCycle_eq]
    simp [renameTmp, appendOk_none_wrAll h2]
  constructor
  · rw [show removeTmpIfExist fs = (⟨none, fs.prom⟩ : FS) from rfl, hfail, hsucc2]
  · rw [show removeTmpIfExist fs = (⟨none, fs.prom⟩ : FS) from rfl, hsucc1, hsucc3]
